import Mathlib

set_option allowUnsafeReducibility true

attribute [semireducible] Rat.add Rat.mul Rat.sub Rat.inv

/-!
Shallow embedding of the discount/coupon eligibility engine of the
eatmilay backend (TypeScript sources under `src/`), together with proofs
checking the natural-language specification against it.

Conventions of the embedding:
* JavaScript numbers are embedded as exact rationals (`ℚ`); all the
  arithmetic performed by the engine (sums of `unitPrice * quantity`,
  percentages, `Math.round`, `Math.min`, `Math.ceil`) is exact on the
  inputs considered.
* Instants (`Date` values) are embedded as integers (`ℤ`); the engine
  only ever compares them.
* MongoDB collections are embedded as lists: the discount collection as
  `List Discount` (with `findOne` = first match in list order), the
  order collection as the list of customer emails of existing orders,
  and the product collection as an association list
  `productId ↦ categoryId?`.
* Nullable / possibly-missing fields are `Option`s.
-/

/-- JavaScript `Math.round`: rounds to the nearest integer, halves toward
`+∞`. -/
def jsRound (x : ℚ) : ℤ := ⌊x + 1/2⌋

/-- `Math.round(x * 100) / 100`: round to 2 decimal places, half-up, as the
engine does for percentage discount amounts. -/
def round2 (x : ℚ) : ℚ := (jsRound (x * 100) : ℚ) / 100

/-- `Number.prototype.toFixed(0)` for the non-negative amounts the engine
formats into user-facing messages (half rounds away from zero, which for
the non-negative values used here agrees with half-up). -/
def toFixed0 (x : ℚ) : String := toString (⌊x + 1/2⌋ : ℤ)

/-- JavaScript string interpolation of a number (`${value}`); integral
values print without a fractional part.  Only used inside generated
description/message strings, whose exact text no claim depends on. -/
def numStr (q : ℚ) : String := if q.den = 1 then toString q.num else toString q

/-- JavaScript `String.prototype.trim()` (strip leading and trailing
whitespace), written on the character list. -/
def jsTrim (s : String) : String :=
  ⟨((s.data.dropWhile Char.isWhitespace).reverse.dropWhile Char.isWhitespace).reverse⟩

/-- JavaScript `String.prototype.toUpperCase()` for the code points the
engine compares, written on the character list. -/
def jsToUpper (s : String) : String := ⟨s.data.map Char.toUpper⟩

inductive DiscountType where
  | percentage
  | fixed
deriving DecidableEq

inductive DiscountStatus where
  | active
  | disabled
  | scheduled
deriving DecidableEq

/-- A document of the `discount` collection, with the fields the engine
reads.  `none` stands for a `null` or missing field. -/
structure Discount where
  code : String
  type : DiscountType
  value : ℚ
  description : Option String
  allowAutoApply : Option Bool
  productIds : List String
  categoryIds : List String
  minOrderAmount : Option ℚ
  maxUsage : Option ℚ
  usedCount : ℚ
  startsAt : Option ℤ
  expiresAt : Option ℤ
  status : Option DiscountStatus
  firstOrderOnly : Bool
  referralCode : Option String
  createdAt : Option ℤ
  updatedAt : Option ℤ
deriving DecidableEq

/-- One line item as passed to the validation endpoints; the zod schema
enforces `quantity` integral (`int().min(1)`), so it is embedded as `ℤ`. -/
structure Item where
  productId : String
  quantity : ℤ
  unitPrice : ℚ
deriving DecidableEq

/-- `ValidateDiscountOptions` of `src/lib/discount-validation.ts`.
`itemCategoryIds` is the optional `Record<productId, categoryId | null>`. -/
structure ValidateOptions where
  customerEmail : Option String
  customerReferralCode : Option String
  itemCategoryIds : Option (List (String × Option String))
deriving DecidableEq

/-- `ValidateDiscountResult`: `{valid:true, discountAmount}` or
`{valid:false, message}`. -/
inductive ValidateResult where
  | valid (discountAmount : ℚ)
  | invalid (message : String)
deriving DecidableEq

def ValidateResult.isValid : ValidateResult → Bool
  | .valid _ => true
  | .invalid _ => false

/-- `startsAt && new Date(startsAt) > now`. -/
def startsFutureB (d : Discount) (now : ℤ) : Bool :=
  match d.startsAt with
  | some s => decide (now < s)
  | none => false

/-- `expiresAt && new Date(expiresAt) < now`. -/
def expiredB (d : Discount) (now : ℤ) : Bool :=
  match d.expiresAt with
  | some e => decide (e < now)
  | none => false

/-- `maxUsage != null && usedCount >= maxUsage`. -/
def usageExhaustedB (d : Discount) : Bool :=
  match d.maxUsage with
  | some m => decide (m ≤ d.usedCount)
  | none => false

/-- `options?.customerEmail?.trim()` is missing or empty (falsy). -/
def emailMissingB (opts : ValidateOptions) : Bool :=
  match opts.customerEmail with
  | some e => decide (jsTrim e = "")
  | none => true

/-- An order with this (trimmed) customer email exists, case-insensitively
(the anchored `$regex` with the `i` flag). -/
def priorOrderB (opts : ValidateOptions) (orders : List String) : Bool :=
  match opts.customerEmail with
  | some e =>
      !(decide (jsTrim e = "")) &&
        orders.any (fun o => jsToUpper o == jsToUpper (jsTrim e))
  | none => false

/-- The referral gate fires: the discount has a non-empty (trimmed)
`referralCode` and the customer's referral code is missing, empty, or does
not match case-insensitively. -/
def referralBlockedB (d : Discount) (ref : Option String) : Bool :=
  match d.referralCode with
  | some r =>
      !(decide (jsTrim r = "")) &&
        (match ref with
         | some c => decide (jsTrim c = "") || !(jsToUpper (jsTrim c) == jsToUpper (jsTrim r))
         | none => true)
  | none => false

/-- `minOrderAmount != null && minOrderAmount > 0 && subtotal < minOrderAmount`. -/
def belowMinB (d : Discount) (subtotal : ℚ) : Bool :=
  match d.minOrderAmount with
  | some m => decide (0 < m) && decide (subtotal < m)
  | none => false

/-- The "Min order ₹X required. Add ₹gap more." message, with
`gap = Math.ceil(minOrderAmount - subtotal)`. -/
def minOrderMessage (m subtotal : ℚ) : String :=
  let a := toFixed0 m
  let g := toString (⌈m - subtotal⌉ : ℤ)
  s!"Min order ₹{a} required. Add ₹{g} more."

/-- Sum of `unitPrice * quantity` over a list of items (the `reduce`). -/
def itemsSum (items : List Item) : ℚ :=
  (items.map (fun i => i.unitPrice * (i.quantity : ℚ))).sum

/-- Truthiness of `itemCategoryIds[productId]` and membership in
`categoryIds` — note the empty string is falsy. -/
def itemCategoryMatchB (m : List (String × Option String))
    (categoryIds : List String) (productId : String) : Bool :=
  match (m.lookup productId).join with
  | some c => !(decide (c = "")) && categoryIds.contains c
  | none => false

/-- `applicableSubtotal` as computed by `validateDiscountForOrder`
(`src/lib/discount-validation.ts` lines 126–138): product scope first,
else category scope — but only when an `itemCategoryIds` map was passed —
else the full subtotal. -/
def applicableSubtotalOf (d : Discount) (subtotal : ℚ) (items : List Item)
    (opts : ValidateOptions) : ℚ :=
  if !d.productIds.isEmpty then
    itemsSum (items.filter (fun i => d.productIds.contains i.productId))
  else
    match opts.itemCategoryIds with
    | some m =>
        if !d.categoryIds.isEmpty then
          itemsSum (items.filter (fun i => itemCategoryMatchB m d.categoryIds i.productId))
        else subtotal
    | none => subtotal

/-- Final amount computation: percentage → `Math.round(as * (value/100) * 100)/100`;
fixed → `Math.min(value, as)`. -/
def discountAmountOf (d : Discount) (as : ℚ) : ℚ :=
  if d.type = .percentage then round2 (as * (d.value / 100)) else min d.value as

/-- Uppercased trimmed code (`code.trim().toUpperCase()`). -/
def normCode (code : String) : String := jsToUpper (jsTrim code)

/-- `findOne({code: /^CODE$/i})`: first discount whose stored code matches
the normalized code case-insensitively. -/
def findDiscount (discounts : List Discount) (nc : String) : Option Discount :=
  discounts.find? (fun d => jsToUpper d.code == nc)

/-- The per-discount body of `validateDiscountForOrder`: every check after
the lookup, in source order (`src/lib/discount-validation.ts` lines 48–156). -/
def evalDiscount (d : Discount) (subtotal : ℚ) (items : List Item)
    (opts : ValidateOptions) (orders : List String) (now : ℤ) : ValidateResult :=
  if d.status.getD .active = .disabled then
    .invalid "This coupon is no longer active"
  else if d.status.getD .active = .scheduled && startsFutureB d now then
    .invalid "This coupon is not yet active"
  else if startsFutureB d now then
    .invalid "This coupon is not yet active"
  else if expiredB d now then
    .invalid "This coupon has expired"
  else if usageExhaustedB d then
    .invalid "This coupon has reached its usage limit"
  else if d.firstOrderOnly && emailMissingB opts then
    .invalid "Enter your email to use this first-order offer"
  else if d.firstOrderOnly && priorOrderB opts orders then
    .invalid "This offer is for first-time customers only"
  else if referralBlockedB d opts.customerReferralCode then
    .invalid "This offer requires a referral link"
  else if belowMinB d subtotal then
    .invalid (minOrderMessage (d.minOrderAmount.getD 0) subtotal)
  else if applicableSubtotalOf d subtotal items opts ≤ 0 then
    .invalid "This coupon does not apply to any items in your cart"
  else
    .valid (discountAmountOf d (applicableSubtotalOf d subtotal items opts))

/-- `validateDiscountForOrder` of `src/lib/discount-validation.ts`:
trim/empty check, case-insensitive lookup in the discount collection,
then the eligibility chain. -/
def validateDiscountForOrder (code : String) (subtotal : ℚ) (items : List Item)
    (opts : ValidateOptions) (discounts : List Discount) (orders : List String)
    (now : ℤ) : ValidateResult :=
  if jsTrim code = "" then .invalid "Invalid or expired coupon code"
  else
    match findDiscount discounts (normCode code) with
    | none => .invalid "Invalid or expired coupon code"
    | some d => evalDiscount d subtotal items opts orders now

/-! ### Call-site wrappers (C2)

`validateStoreDiscount` (`src/routes/store-discounts.ts` lines 145–179, the
definition in force) forwards to `validateDiscountForOrder` passing only
`customerEmail` / `customerReferralCode` — no `itemCategoryIds`.
`createStoreOrder` (`src/unnamed/part_005` lines 45–89) resolves each item's
category from the product collection and passes the map. -/

/-- Category map built by querying the product collection for the given
product ids (`ObjectId.isValid` only drops ids that cannot occur as keys of
the collection, so the net effect is restriction of the collection to the
requested ids). -/
def buildCategoryMap (ids : List String)
    (productStore : List (String × Option String)) : List (String × Option String) :=
  productStore.filter (fun e => ids.contains e.fst)

/-- The discount decision of the preview endpoint `validateStoreDiscount`:
no `itemCategoryIds` in the options. -/
def previewDecision (code : String) (subtotal : ℚ) (items : List Item)
    (customerEmail customerReferralCode : Option String)
    (discounts : List Discount) (orders : List String) (now : ℤ) : ValidateResult :=
  validateDiscountForOrder code subtotal items
    ⟨customerEmail, customerReferralCode, none⟩ discounts orders now

/-- `itemCategoryIds` as built by `createStoreOrder`: present exactly when
the cart has at least one non-empty product id. -/
def commitItemCategoryIds (items : List Item)
    (productStore : List (String × Option String)) : Option (List (String × Option String)) :=
  let ids := (items.map (fun i => i.productId)).filter (fun s => !(decide (s = "")))
  if ids.isEmpty then none else some (buildCategoryMap ids productStore)

/-- The discount decision of the checkout-commit path `createStoreOrder`
(taken when a coupon code and a positive client discount are present):
same library call, but with the resolved `itemCategoryIds`. -/
def commitDecision (code : String) (subtotal : ℚ) (items : List Item)
    (customerEmail customerReferralCode : Option String)
    (productStore : List (String × Option String))
    (discounts : List Discount) (orders : List String) (now : ℤ) : ValidateResult :=
  validateDiscountForOrder code subtotal items
    ⟨customerEmail, customerReferralCode, commitItemCategoryIds items productStore⟩
    discounts orders now

/-! ### OfferCatalog / OfferRanker (`getAvailableOffers`) -/

/-- The catalog query: `status ∈ {active, scheduled}` (stored value) and
(`expiresAt` null or `> now`) and (`startsAt` null or `≤ now`). -/
def catalogPred (now : ℤ) (d : Discount) : Bool :=
  (d.status == some .active || d.status == some .scheduled) &&
    (match d.expiresAt with
     | some e => decide (now < e)
     | none => true) &&
    (match d.startsAt with
     | some s => decide (s ≤ now)
     | none => true)

/-- An element of the offers array returned by `getAvailableOffers`.  The
source emits `locked`/`gapAmount` only when locked; here `locked : Bool`
with `gapAmount = none` when unlocked. -/
structure Offer where
  code : String
  type : DiscountType
  value : ℚ
  minOrderAmount : Option ℚ
  discountAmount : ℚ
  description : String
  allowAutoApply : Bool
  createdAt : Option ℤ
  locked : Bool
  gapAmount : Option ℚ
  expiresAt : Option ℤ
  usesLeft : Option ℚ
deriving DecidableEq

/-- `buildOfferDescription` (currency is the constant `"INR"`). -/
def buildOfferDescription (type : DiscountType) (value : ℚ)
    (minOrderAmount : Option ℚ) : String :=
  let sym := "₹"
  let v := numStr value
  let v0 := toFixed0 value
  let base := if type = .percentage then s!"{v}% off" else s!"{sym}{v0} off"
  match minOrderAmount with
  | some m =>
      if 0 < m then
        let m0 := toFixed0 m
        s!"{base} on orders over {sym}{m0}"
      else base
  | none => base

/-- The offer description: custom text when set and non-empty, else the
generated one. -/
def offerDescription (d : Discount) : String :=
  match d.description.map jsTrim with
  | some s => if s = "" then buildOfferDescription d.type d.value d.minOrderAmount else s
  | none => buildOfferDescription d.type d.value d.minOrderAmount

/-- `applicableSubtotal` as computed inside the `getAvailableOffers` loop
(`src/routes/store-discounts.ts` lines 297–309); the category map is always
available there (no option). -/
def offerApplicableSubtotal (d : Discount) (subtotal : ℚ) (items : List Item)
    (catMap : List (String × Option String)) : ℚ :=
  if !d.productIds.isEmpty then
    itemsSum (items.filter (fun i => d.productIds.contains i.productId))
  else if !d.categoryIds.isEmpty then
    itemsSum (items.filter (fun i => itemCategoryMatchB catMap d.categoryIds i.productId))
  else subtotal

/-- The body of the `getAvailableOffers` loop for one catalog candidate:
`none` when the candidate is skipped (`continue`), `some offer` when pushed.
Note there is no `firstOrderOnly` check and no minimum-order exclusion. -/
def processOffer (subtotal : ℚ) (items : List Item)
    (customerReferralCode : Option String)
    (catMap : List (String × Option String)) (now : ℤ) (d : Discount) : Option Offer :=
  if d.status.getD .active = .disabled then none
  else if startsFutureB d now then none
  else if expiredB d now then none
  else if usageExhaustedB d then none
  else if referralBlockedB d customerReferralCode then none
  else if offerApplicableSubtotal d subtotal items catMap ≤ 0 then none
  else
    some
      { code := jsToUpper (jsTrim d.code)
        type := d.type
        value := d.value
        minOrderAmount := d.minOrderAmount
        discountAmount :=
          discountAmountOf d
            (if belowMinB d subtotal then d.minOrderAmount.getD 0
             else offerApplicableSubtotal d subtotal items catMap)
        description := offerDescription d
        allowAutoApply := d.allowAutoApply.getD true
        createdAt := d.createdAt
        locked := belowMinB d subtotal
        gapAmount :=
          if belowMinB d subtotal then some (d.minOrderAmount.getD 0 - subtotal)
          else none
        expiresAt := d.expiresAt
        usesLeft := d.maxUsage.map (fun m => max 0 (m - d.usedCount)) }

/-- The `itemCategoryIds` map `getAvailableOffers` resolves for the cart's
(non-empty) product ids. -/
def offersCatMap (items : List Item)
    (productStore : List (String × Option String)) : List (String × Option String) :=
  buildCategoryMap ((items.map (fun i => i.productId)).filter (fun s => !(decide (s = ""))))
    productStore

/-- `getAvailableOffers` (`src/routes/store-discounts.ts` lines 209–366):
resolve item categories, run the catalog query, then keep the candidates
the loop pushes.  `customerEmail` is accepted but never used by the loop. -/
def getAvailableOffers (subtotal : ℚ) (items : List Item)
    (customerEmail customerReferralCode : Option String)
    (productStore : List (String × Option String))
    (discounts : List Discount) (now : ℤ) : List Offer :=
  (discounts.filter (catalogPred now)).filterMap
    (processOffer subtotal items customerReferralCode (offersCatMap items productStore) now)

/-! ### BestPerProductSelector (`getDiscountsForProducts`) -/

/-- The running "best" kept by the scan, with the fields the loop stores. -/
structure ProductBest where
  code : String
  value : ℚ
  type : DiscountType
  description : String
  discountAmount : ℚ
deriving DecidableEq

/-- The badge finally emitted per product (the stored best minus
`discountAmount`). -/
structure ProductBadge where
  code : String
  value : ℚ
  type : DiscountType
  description : String
deriving DecidableEq

/-- Generated description inside `getDiscountsForProducts` (custom text when
set and non-empty, else `"<value>% off"` / `"₹<value> off"`). -/
def badgeDescription (d : Discount) : String :=
  let v := numStr d.value
  let v0 := toFixed0 d.value
  let gen := if d.type = .percentage then s!"{v}% off" else s!"₹{v0} off"
  match d.description.map jsTrim with
  | some s => if s = "" then gen else s
  | none => gen

/-- The gate checks of the inner loop (`status`, `startsAt`, `expiresAt`,
`maxUsage`), `true` when the candidate is not skipped. -/
def gatesPassB (d : Discount) (now : ℤ) : Bool :=
  !(d.status.getD .active == .disabled) && !startsFutureB d now &&
    !expiredB d now && !usageExhaustedB d

/-- The scope test of `getDiscountsForProducts` (lines 501–511):
`appliesByProduct || appliesByCategory`, where an empty `productIds` counts
as applying by product, and the category side only requires the resolved
category to be non-null (`!= null`) and listed. -/
def appliesB (catMap : List (String × Option String)) (productId : String)
    (d : Discount) : Bool :=
  let appliesByProduct := d.productIds.isEmpty || d.productIds.contains productId
  let appliesByCategory :=
    !d.categoryIds.isEmpty &&
      (match (catMap.lookup productId).join with
       | some c => d.categoryIds.contains c
       | none => false)
  appliesByProduct || appliesByCategory

/-- `isBetter` (lines 522–525): a first candidate always wins; a percentage
candidate wins when strictly larger in value than the current best; a fixed
candidate wins exactly when the current best is percentage-typed. -/
def isBetterB (best : Option ProductBest) (d : Discount) : Bool :=
  match best with
  | none => true
  | some b =>
      (d.type == .percentage && decide (b.value < d.value)) ||
        (d.type == .fixed && b.type == .percentage)

/-- The candidate's stored best record. -/
def toBest (d : Discount) : ProductBest :=
  ⟨jsToUpper (jsTrim d.code), d.value, d.type, badgeDescription d, d.value⟩

/-- One step of the scan over catalog candidates. -/
def bestStep (catMap : List (String × Option String)) (now : ℤ)
    (productId : String) (best : Option ProductBest) (d : Discount) :
    Option ProductBest :=
  if gatesPassB d now && appliesB catMap productId d then
    if isBetterB best d then some (toBest d) else best
  else best

/-- The scan for one product over the fetched discounts. -/
def bestForProduct (discounts : List Discount)
    (catMap : List (String × Option String)) (now : ℤ) (productId : String) :
    Option ProductBest :=
  discounts.foldl (bestStep catMap now productId) none

/-- `getDiscountsForProducts` (`src/routes/store-discounts.ts` lines
430–549): the result map `productId → badge`, as the association list in
input order, keeping only products with a best. -/
def getDiscountsForProducts (productIds : List String)
    (productStore : List (String × Option String))
    (discounts : List Discount) (now : ℤ) : List (String × ProductBadge) :=
  productIds.filterMap (fun p =>
    (bestForProduct (discounts.filter (catalogPred now))
        (buildCategoryMap productIds productStore) now p).map
      (fun b => (p, (⟨b.code, b.value, b.type, b.description⟩ : ProductBadge))))

/-! ### StatusSynchronizer (`syncDiscountStatuses`) -/

/-- `startsAt` null or `≤ now`. -/
def startsDueB (d : Discount) (now : ℤ) : Bool :=
  match d.startsAt with
  | some s => decide (s ≤ now)
  | none => true

/-- First bulk update: `{status:"active", expiresAt:{$lt:now,$ne:null}}`
becomes `disabled` (also stamping `updatedAt`). -/
def expireSweepOne (now : ℤ) (d : Discount) : Discount :=
  if d.status = some .active && expiredB d now then
    { d with status := some .disabled, updatedAt := some now }
  else d

/-- Second bulk update: `{status:"scheduled", startsAt null or ≤ now}`
becomes `active` (also stamping `updatedAt`). -/
def activateSweepOne (now : ℤ) (d : Discount) : Discount :=
  if d.status = some .scheduled && startsDueB d now then
    { d with status := some .active, updatedAt := some now }
  else d

def expireSweep (now : ℤ) (s : List Discount) : List Discount :=
  s.map (expireSweepOne now)

def activateSweep (now : ℤ) (s : List Discount) : List Discount :=
  s.map (activateSweepOne now)

/-- `syncDiscountStatuses` (`src/jobs/sync-discount-statuses.ts`): the
expire update runs first, then the activate update. -/
def syncDiscountStatuses (now : ℤ) (s : List Discount) : List Discount :=
  activateSweep now (expireSweep now s)

/-! ### Concrete fixtures used by the scenario theorems -/

/-- A 10%-off discount scoped to category `"A"`, active, unconstrained
otherwise. -/
def dPercA : Discount :=
  ⟨"CAT10", .percentage, 10, none, none, [], ["A"], none, none, 0, none, none,
    some .active, false, none, none, none⟩

/-- A 5-off fixed discount scoped to product `"X"`, active, unconstrained
otherwise. -/
def dFixedX : Discount :=
  ⟨"SAVE5", .fixed, 5, none, none, ["X"], [], none, none, 0, none, none,
    some .active, false, none, none, none⟩

/-- A whole-cart 10%-off discount with `firstOrderOnly = true`. -/
def dFirst : Discount :=
  ⟨"FIRST10", .percentage, 10, none, none, [], [], none, none, 0, none, none,
    some .active, true, none, none, none⟩

/-- Scenario A's discount: 10% off on orders over 1000. -/
def dMin1000 : Discount :=
  ⟨"SAVE10", .percentage, 10, none, none, [], [], some 1000, none, 0, none, none,
    some .active, false, none, none, none⟩

/-- A discount with empty `productIds` and `categoryIds = ["B"]`. -/
def dWholeB : Discount :=
  ⟨"ALL10", .percentage, 10, none, none, [], ["B"], none, none, 0, none, none,
    some .active, false, none, none, none⟩

/-- A scheduled discount whose `startsAt` is null and whose `expiresAt` is
already past at `now = 0`. -/
def dBadSched : Discount :=
  ⟨"SCHED", .percentage, 10, none, none, [], [], none, none, 0, none, some (-1),
    some .scheduled, false, none, none, none⟩

/-- A percentage discount with `value = 200` (the data model does not
enforce 0–100). -/
def dPerc200 : Discount :=
  ⟨"BIG", .percentage, 200, none, none, [], [], none, none, 0, none, none,
    some .active, false, none, none, none⟩

/-- A fixed discount whose value `5.005` carries three decimal places. -/
def dFix5005 : Discount :=
  ⟨"ODD", .fixed, 1001/200, none, none, [], [], none, none, 0, none, none,
    some .active, false, none, none, none⟩

/-- An active discount that has already expired at `now = 0`. -/
def dExpired : Discount :=
  ⟨"OLD10", .percentage, 10, none, none, [], [], none, none, 0, none, some (-1),
    some .scheduled, false, none, none, none⟩

/-- A whole-cart percentage discount with `value = 50`, used to witness the
amount-bound theorem. -/
def dPerc50 : Discount :=
  ⟨"HALF", .percentage, 50, none, none, [], [], none, none, 0, none, none,
    some .active, false, none, none, none⟩

/-! ### Shared inversion and arithmetic lemmas -/

set_option maxHeartbeats 1000000 in
/-- Anything `evalDiscount` accepts got past every gate: in particular the
discount was not expired, the applicable subtotal was positive, and the
returned amount is exactly `discountAmountOf` at that subtotal. -/
theorem evalDiscount_valid_inv {d : Discount} {subtotal : ℚ} {items : List Item}
    {opts : ValidateOptions} {orders : List String} {now : ℤ} {a : ℚ}
    (h : evalDiscount d subtotal items opts orders now = .valid a) :
    expiredB d now = false ∧
      0 < applicableSubtotalOf d subtotal items opts ∧
      a = discountAmountOf d (applicableSubtotalOf d subtotal items opts) := by
  unfold evalDiscount at h
  split_ifs at h with h1 h2 h3 h4 h5 h6 h7 h8 h9 h10 <;>
    try exact ValidateResult.noConfusion h
  injection h with ha
  exact ⟨by simpa using h4, not_le.mp h10, ha.symm⟩

/-- Same inversion lifted through the lookup of
`validateDiscountForOrder`. -/
theorem validate_valid_inv {code : String} {subtotal : ℚ} {items : List Item}
    {opts : ValidateOptions} {discounts : List Discount} {orders : List String}
    {now : ℤ} {d : Discount} {a : ℚ}
    (hfind : findDiscount discounts (normCode code) = some d)
    (h : validateDiscountForOrder code subtotal items opts discounts orders now =
      .valid a) :
    expiredB d now = false ∧
      0 < applicableSubtotalOf d subtotal items opts ∧
      a = discountAmountOf d (applicableSubtotalOf d subtotal items opts) := by
  unfold validateDiscountForOrder at h
  by_cases hc : jsTrim code = ""
  · rw [if_pos hc] at h
    exact absurd h (by simp)
  · rw [if_neg hc, hfind] at h
    exact evalDiscount_valid_inv h

/-! ### Claim theorems -/

/-- C10: `validateDiscountForOrder` with an empty or whitespace-only code
returns `{valid:false, message:"Invalid or expired coupon code"}`
immediately, whatever the discount store, order store, subtotal, items and
options — the store is never consulted. -/
theorem c10_blank_code_rejected (code : String) (subtotal : ℚ) (items : List Item)
    (opts : ValidateOptions) (discounts : List Discount) (orders : List String)
    (now : ℤ) (h : jsTrim code = "") :
    validateDiscountForOrder code subtotal items opts discounts orders now =
      .invalid "Invalid or expired coupon code" := by
  unfold validateDiscountForOrder
  rw [if_pos h]

/-- C10 witness: the whitespace-only code `"   "` against a non-empty
store. -/
theorem c10_blank_code_rejected_witness :
    jsTrim "   " = "" ∧
      validateDiscountForOrder "   " 5 [] ⟨none, none, none⟩ [dPercA] [] 0 =
        .invalid "Invalid or expired coupon code" :=
  ⟨by decide,
    c10_blank_code_rejected "   " 5 [] ⟨none, none, none⟩ [dPercA] [] 0 (by decide)⟩

/-- C2: against the same store state at the same `now`, the preview
endpoint (`validateStoreDiscount`, which passes no `itemCategoryIds`)
accepts the category-scoped code `CAT10` with `discountAmount = 10`, while
the checkout-commit path (`createStoreOrder`, which resolves and passes
`itemCategoryIds`) rejects the identical request — the call sites disagree
for category-scoped discounts. -/
theorem c2_preview_commit_disagree :
    previewDecision "CAT10" 100 [⟨"P1", 1, 100⟩] none none [dPercA] [] 0 =
        .valid 10 ∧
      commitDecision "CAT10" 100 [⟨"P1", 1, 100⟩] none none [("P1", some "B")]
          [dPercA] [] 0 =
        .invalid "This coupon does not apply to any items in your cart" := by
  decide

/-- C1 counterexample: with catalog order `[10% on category A, 5 off on
product X]` and `X ∈ A`, `bestOfferPerProduct(["X"])` returns the fixed
5-off discount, not the 10% one — a fixed candidate does replace a
percentage current best. -/
theorem c1_counterexample :
    getDiscountsForProducts ["X"] [("X", some "A")] [dPercA, dFixedX] 0 =
        [("X", ⟨"SAVE5", 5, .fixed, "₹5 off"⟩)] ∧
      bestStep [("X", some "A")] 0 "X" (some (toBest dPercA)) dFixedX =
        some (toBest dFixedX) := by
  decide

/-- C3 counterexample: a `firstOrderOnly` discount is still listed by
`getAvailableOffers` although `customerEmail` is absent. -/
theorem c3_counterexample :
    dFirst.firstOrderOnly = true ∧
      (getAvailableOffers 100 [⟨"P1", 1, 100⟩] none none [] [dFirst] 0).map
          (fun o => o.code) =
        ["FIRST10"] := by
  decide

/-- C4 counterexample: a discount with empty `productIds` and
`categoryIds = ["B"]` badges a product whose resolved category is `"A"` —
empty `productIds` makes the discount apply to every product, regardless of
`categoryIds`. -/
theorem c4_counterexample :
    dWholeB.productIds = [] ∧ dWholeB.categoryIds = ["B"] ∧
      (getDiscountsForProducts ["X"] [("X", some "A")] [dWholeB] 0).map
          Prod.fst =
        ["X"] := by
  decide

/-- C7 counterexample: on a store holding one scheduled discount whose
`startsAt` is null and whose `expiresAt` is past, running the sweep twice
changes the status again (active after one run, disabled after two), and
the two bulk updates do not commute. -/
theorem c7_counterexample :
    ¬((syncDiscountStatuses 0 (syncDiscountStatuses 0 [dBadSched])).map
          (fun d => d.status) =
        (syncDiscountStatuses 0 [dBadSched]).map (fun d => d.status)) ∧
      ¬((expireSweep 0 (activateSweep 0 [dBadSched])).map (fun d => d.status) =
          (activateSweep 0 (expireSweep 0 [dBadSched])).map (fun d => d.status)) := by
  decide

/-- C6 counterexample: a percentage discount with `value = 200` is accepted
with `discountAmount = 200` on an applicable subtotal of `100` — the bound
`discountAmount ≤ applicableSubtotal` fails for percentage discounts. -/
theorem c6_counterexample :
    validateDiscountForOrder "BIG" 100 [] ⟨none, none, none⟩ [dPerc200] [] 0 =
        .valid 200 ∧
      applicableSubtotalOf dPerc200 100 [] ⟨none, none, none⟩ = 100 ∧
      ¬((200 : ℚ) ≤ 100) := by
  decide

/-- C9 counterexample: the fixed branch performs no rounding — the accepted
amount `5.005` carries three decimal places and differs from its own
round-half-up to 2 decimals. -/
theorem c9_counterexample :
    validateDiscountForOrder "ODD" 100 [⟨"P1", 1, 100⟩] ⟨none, none, none⟩
        [dFix5005] [] 0 =
        .valid (1001 / 200) ∧
      round2 (1001 / 200) ≠ 1001 / 200 := by
  decide

/-- Anything `processOffer` emits carries the amount computed by
`discountAmountOf` on the locked-or-actual base. -/
theorem processOffer_some_inv {subtotal : ℚ} {items : List Item} {ref : Option String}
    {catMap : List (String × Option String)} {now : ℤ} {d : Discount} {o : Offer}
    (h : processOffer subtotal items ref catMap now d = some o) :
    o.discountAmount =
      discountAmountOf d
        (if belowMinB d subtotal then d.minOrderAmount.getD 0
         else offerApplicableSubtotal d subtotal items catMap) := by
  unfold processOffer at h
  split_ifs at h with h1 h2 h3 h4 h5 h6 h7 <;> try exact Option.noConfusion h
  all_goals injection h with ho
  all_goals rw [← ho]
  all_goals simp [h7]

/-- C8: a discount whose `expiresAt` is non-null and earlier than `now` is
rejected by `validateDiscountForOrder` whatever its cached `status` field
holds (the quantified `d` carries an arbitrary status, including a missing
one): eligibility is re-derived from the timestamps on every call and the
cached status is never the sole basis for acceptance. -/
theorem c8_expired_always_rejected (code : String) (subtotal : ℚ) (items : List Item)
    (opts : ValidateOptions) (discounts : List Discount) (orders : List String)
    (now : ℤ) (d : Discount) (e : ℤ)
    (hfind : findDiscount discounts (normCode code) = some d)
    (he : d.expiresAt = some e) (hlt : e < now) :
    (validateDiscountForOrder code subtotal items opts discounts orders now).isValid =
      false := by
  cases hres : validateDiscountForOrder code subtotal items opts discounts orders now with
  | invalid m => rfl
  | valid a =>
      exfalso
      have hinv := validate_valid_inv hfind hres
      have hexp : expiredB d now = true := by
        unfold expiredB
        rw [he]
        simpa using hlt
      rw [hinv.1] at hexp
      exact Bool.noConfusion hexp

/-- C8 witness: a concrete expired discount whose cached status is still
`scheduled` is rejected. -/
theorem c8_expired_always_rejected_witness :
    findDiscount [dExpired] (normCode "OLD10") = some dExpired ∧
      dExpired.expiresAt = some (-1) ∧ (-1 : ℤ) < 0 ∧
      (validateDiscountForOrder "OLD10" 100 [] ⟨none, none, none⟩ [dExpired] []
          0).isValid =
        false :=
  ⟨by decide, by decide, by decide,
    c8_expired_always_rejected "OLD10" 100 [] ⟨none, none, none⟩ [dExpired] [] 0
      dExpired (-1) (by decide) (by decide) (by decide)⟩

/-- C9 (amended): only the percentage branches round: every percentage
amount accepted by `validateDiscountForOrder` or emitted by
`getAvailableOffers` is an integer number of hundredths (it is `round2` of
its base product), while a fixed amount is `min(value, base)` with no
rounding at all (refuted on `5.005` by the counterexample). -/
theorem c9_rounding_corrected :
    (∀ (code : String) (subtotal : ℚ) (items : List Item) (opts : ValidateOptions)
        (discounts : List Discount) (orders : List String) (now : ℤ)
        (d : Discount) (a : ℚ),
        findDiscount discounts (normCode code) = some d →
        validateDiscountForOrder code subtotal items opts discounts orders now =
          .valid a →
        (d.type = .percentage → ∃ n : ℤ, a = (n : ℚ) / 100) ∧
          (d.type = .fixed →
            a = min d.value (applicableSubtotalOf d subtotal items opts))) ∧
      ∀ (subtotal : ℚ) (items : List Item) (ref : Option String)
        (catMap : List (String × Option String)) (now : ℤ) (d : Discount)
        (o : Offer),
        processOffer subtotal items ref catMap now d = some o →
        d.type = .percentage → ∃ n : ℤ, o.discountAmount = (n : ℚ) / 100 := by
  constructor
  · intro code subtotal items opts discounts orders now d a hfind hvalid
    have ha := (validate_valid_inv hfind hvalid).2.2
    constructor
    · intro ht
      refine ⟨jsRound (applicableSubtotalOf d subtotal items opts * (d.value / 100) *
        100), ?_⟩
      rw [ha]
      unfold discountAmountOf
      rw [if_pos ht]
      unfold round2
      rfl
    · intro ht
      rw [ha]
      unfold discountAmountOf
      rw [if_neg (by rw [ht]; exact fun hc => DiscountType.noConfusion hc)]
  · intro subtotal items ref catMap now d o hproc ht
    have hamt := processOffer_some_inv hproc
    refine ⟨jsRound ((if belowMinB d subtotal then d.minOrderAmount.getD 0
      else offerApplicableSubtotal d subtotal items catMap) * (d.value / 100) *
        100), ?_⟩
    rw [hamt]
    unfold discountAmountOf
    rw [if_pos ht]
    unfold round2
    rfl

/-- C9 witness: the concrete percentage evaluation of `CAT10` yields 10,
an integer number of hundredths. -/
theorem c9_rounding_corrected_witness :
    validateDiscountForOrder "CAT10" 100 [⟨"P1", 1, 100⟩] ⟨none, none, none⟩
        [dPercA] [] 0 =
      .valid 10 ∧
      (dPercA.type = .percentage → ∃ n : ℤ, (10 : ℚ) = (n : ℚ) / 100) :=
  ⟨by decide,
    (c9_rounding_corrected.1 "CAT10" 100 [⟨"P1", 1, 100⟩] ⟨none, none, none⟩
        [dPercA] [] 0 dPercA 10 (by decide) (by decide)).1⟩

/-- `Math.round` of a non-negative number is non-negative. -/
theorem jsRound_nonneg {x : ℚ} (hx : 0 ≤ x) : 0 ≤ jsRound x := by
  unfold jsRound
  exact Int.floor_nonneg.mpr (by linarith)

/-- `round2` of a non-negative number is non-negative. -/
theorem round2_nonneg {x : ℚ} (hx : 0 ≤ x) : 0 ≤ round2 x := by
  unfold round2
  have h1 : (0 : ℤ) ≤ jsRound (x * 100) := jsRound_nonneg (by positivity)
  have h2 : (0 : ℚ) ≤ (jsRound (x * 100) : ℚ) := by exact_mod_cast h1
  positivity

/-- When the base is a whole number of hundredths and the percentage is at
most 100, the rounded percentage amount cannot exceed the base. -/
theorem round2_le_of_cents {v as : ℚ} (hv0 : 0 ≤ v) (hv : v ≤ 100)
    (has : 0 ≤ as) {n : ℤ} (hn : as * 100 = (n : ℚ)) :
    round2 (as * (v / 100)) ≤ as := by
  unfold round2 jsRound
  have h1 : as * (v / 100) * 100 = as * v := by ring
  rw [h1]
  have h2 : as * v ≤ (n : ℚ) := by nlinarith
  have h3 : (⌊as * v + 1 / 2⌋ : ℤ) ≤ n := by
    have hlt : as * v + 1 / 2 < ((n + 1 : ℤ) : ℚ) := by push_cast; linarith
    have := Int.floor_lt.mpr hlt
    omega
  have h4 : ((⌊as * v + 1 / 2⌋ : ℤ) : ℚ) ≤ (n : ℚ) := by exact_mod_cast h3
  have h5 : as = (n : ℚ) / 100 := by rw [← hn]; ring
  linarith

/-- A sum of whole-hundredths line totals is a whole number of
hundredths. -/
theorem itemsSum_cents (items : List Item)
    (h : ∀ i ∈ items, ∃ n : ℤ, i.unitPrice * 100 = (n : ℚ)) :
    ∃ n : ℤ, itemsSum items * 100 = (n : ℚ) := by
  induction items with
  | nil => exact ⟨0, by simp [itemsSum]⟩
  | cons i t ih =>
      obtain ⟨n, hn⟩ := h i (List.mem_cons_self i t)
      obtain ⟨m, hm⟩ := ih fun j hj => h j (List.mem_cons_of_mem i hj)
      refine ⟨n * i.quantity + m, ?_⟩
      have hsum : itemsSum (i :: t) = i.unitPrice * (i.quantity : ℚ) + itemsSum t := by
        simp [itemsSum]
      rw [hsum]
      push_cast
      linear_combination (i.quantity : ℚ) * hn + hm

/-- The applicable subtotal is a whole number of hundredths whenever the
order subtotal and every unit price are. -/
theorem applicableSubtotal_cents (d : Discount) (subtotal : ℚ) (items : List Item)
    (opts : ValidateOptions)
    (hs : ∃ n : ℤ, subtotal * 100 = (n : ℚ))
    (hp : ∀ i ∈ items, ∃ n : ℤ, i.unitPrice * 100 = (n : ℚ)) :
    ∃ n : ℤ, applicableSubtotalOf d subtotal items opts * 100 = (n : ℚ) := by
  unfold applicableSubtotalOf
  cases hmc : opts.itemCategoryIds with
  | some m =>
      split_ifs with h1 h2
      all_goals
        first
          | exact itemsSum_cents _ fun i hi => hp i (List.mem_of_mem_filter hi)
          | simpa using hs
  | none =>
      split_ifs with h1
      all_goals
        first
          | exact itemsSum_cents _ fun i hi => hp i (List.mem_of_mem_filter hi)
          | simpa using hs

/-- C6 (amended): whenever `validate` accepts, the amount is non-negative
given only the data-model constraint `value ≥ 0`, and a fixed-type amount
always equals `min(value, applicableSubtotal)` — hence never exceeds the
applicable base — with no further hypotheses.  The upper bound for
percentage-type discounts needs exactly what the counterexample forces:
`value ≤ 100` (which the engine does not enforce) and whole-hundredths
money inputs. -/
theorem c6_amount_bounds :
    (∀ (code : String) (subtotal : ℚ) (items : List Item) (opts : ValidateOptions)
        (discounts : List Discount) (orders : List String) (now : ℤ)
        (d : Discount) (a : ℚ),
        findDiscount discounts (normCode code) = some d →
        validateDiscountForOrder code subtotal items opts discounts orders now =
          .valid a →
        (0 ≤ d.value → 0 ≤ a) ∧
          (d.type = .fixed →
            a = min d.value (applicableSubtotalOf d subtotal items opts) ∧
              a ≤ applicableSubtotalOf d subtotal items opts)) ∧
      ∀ (code : String) (subtotal : ℚ) (items : List Item) (opts : ValidateOptions)
        (discounts : List Discount) (orders : List String) (now : ℤ)
        (d : Discount) (a : ℚ),
        findDiscount discounts (normCode code) = some d →
        0 ≤ d.value → (d.type = .percentage → d.value ≤ 100) →
        (∃ n : ℤ, subtotal * 100 = (n : ℚ)) →
        (∀ i ∈ items, ∃ n : ℤ, i.unitPrice * 100 = (n : ℚ)) →
        validateDiscountForOrder code subtotal items opts discounts orders now =
          .valid a →
        0 ≤ a ∧ a ≤ applicableSubtotalOf d subtotal items opts := by
  constructor
  · intro code subtotal items opts discounts orders now d a hfind hvalid
    obtain ⟨-, haspos, ha⟩ := validate_valid_inv hfind hvalid
    constructor
    · intro hval
      rw [ha]
      cases ht : d.type with
      | percentage =>
          unfold discountAmountOf
          rw [if_pos ht]
          exact round2_nonneg (mul_nonneg haspos.le (div_nonneg hval (by norm_num)))
      | fixed =>
          unfold discountAmountOf
          rw [if_neg (by rw [ht]; simp)]
          exact le_min hval haspos.le
    · intro ht
      rw [ha]
      unfold discountAmountOf
      rw [if_neg (by rw [ht]; simp)]
      exact ⟨rfl, min_le_right _ _⟩
  · intro code subtotal items opts discounts orders now d a hfind hval hperc hsubC
      hpriceC hvalid
    obtain ⟨-, haspos, ha⟩ := validate_valid_inv hfind hvalid
    cases ht : d.type with
    | percentage =>
        rw [ha]
        unfold discountAmountOf
        rw [if_pos ht]
        constructor
        · exact round2_nonneg (mul_nonneg haspos.le (div_nonneg hval (by norm_num)))
        · obtain ⟨n, hn⟩ := applicableSubtotal_cents d subtotal items opts hsubC
            hpriceC
          exact round2_le_of_cents hval (hperc ht) haspos.le hn
    | fixed =>
        rw [ha]
        unfold discountAmountOf
        rw [if_neg (by rw [ht]; simp)]
        exact ⟨le_min hval haspos.le, min_le_right _ _⟩

/-- C6 witness: the fixed 5-off on product X through the unconditional
part, and the 50% discount on a whole-hundredths cart through the bounded
part, both applications of the theorem. -/
theorem c6_amount_bounds_witness :
    validateDiscountForOrder "SAVE5" 100 [⟨"X", 1, 100⟩] ⟨none, none, none⟩
        [dFixedX] [] 0 =
      .valid 5 ∧
      ((0 ≤ dFixedX.value → 0 ≤ (5 : ℚ)) ∧
        (dFixedX.type = .fixed →
          (5 : ℚ) = min dFixedX.value
              (applicableSubtotalOf dFixedX 100 [⟨"X", 1, 100⟩]
                ⟨none, none, none⟩) ∧
            (5 : ℚ) ≤ applicableSubtotalOf dFixedX 100 [⟨"X", 1, 100⟩]
              ⟨none, none, none⟩)) ∧
      0 ≤ (50 : ℚ) ∧
      (50 : ℚ) ≤ applicableSubtotalOf dPerc50 100 [⟨"P1", 1, 100⟩]
        ⟨none, none, none⟩ :=
  ⟨by decide,
    c6_amount_bounds.1 "SAVE5" 100 [⟨"X", 1, 100⟩] ⟨none, none, none⟩ [dFixedX]
      [] 0 dFixedX 5 (by decide) (by decide),
    c6_amount_bounds.2 "HALF" 100 [⟨"P1", 1, 100⟩] ⟨none, none, none⟩ [dPerc50]
      [] 0 dPerc50 50 (by decide) (by decide) (by decide) ⟨10000, by norm_num⟩
      (fun i hi => by
        rw [List.mem_singleton] at hi
        subst hi
        exact ⟨10000, by norm_num⟩)
      (by decide)⟩

/-- A catalog hit cannot be disabled, future-dated or expired. -/
theorem catalogPred_gates {now : ℤ} {d : Discount} (h : catalogPred now d = true) :
    d.status.getD .active ≠ .disabled ∧ startsFutureB d now = false ∧
      expiredB d now = false := by
  unfold catalogPred at h
  simp only [Bool.and_eq_true, Bool.or_eq_true, beq_iff_eq] at h
  obtain ⟨⟨hst, hexp⟩, hstart⟩ := h
  refine ⟨?_, ?_, ?_⟩
  · rcases hst with h | h <;> rw [h] <;> simp
  · unfold startsFutureB
    cases hsa : d.startsAt with
    | none => rfl
    | some s =>
        rw [hsa] at hstart
        simp only [decide_eq_true_eq] at hstart
        simp only [decide_eq_false_iff_not, not_lt]
        exact hstart
  · unfold expiredB
    cases hea : d.expiresAt with
    | none => rfl
    | some e =>
        rw [hea] at hexp
        simp only [decide_eq_true_eq] at hexp
        simp only [decide_eq_false_iff_not, not_lt]
        exact hexp.le

/-- C5: every catalog candidate that clears all gates except its
minimum-order threshold is still emitted by `getAvailableOffers`, with
`locked = true`, `gapAmount = minOrderAmount − subtotal`, and
`discountAmount` computed on `minOrderAmount` as the base; Scenario A
(`minOrderAmount=1000`, percentage 10, `subtotal=500`) yields a locked
offer with `discountAmount = 100` and `gapAmount = 500`. -/
theorem c5_locked_offers :
    (∀ (subtotal : ℚ) (items : List Item) (email ref : Option String)
        (ps : List (String × Option String)) (ds : List Discount) (now : ℤ)
        (d : Discount) (m : ℚ),
        d ∈ ds → catalogPred now d = true → usageExhaustedB d = false →
        referralBlockedB d ref = false →
        0 < offerApplicableSubtotal d subtotal items (offersCatMap items ps) →
        d.minOrderAmount = some m → 0 < m → subtotal < m →
        ∃ o ∈ getAvailableOffers subtotal items email ref ps ds now,
          o.code = jsToUpper (jsTrim d.code) ∧ o.locked = true ∧
            o.gapAmount = some (m - subtotal) ∧
            o.discountAmount =
              (if d.type = .percentage then round2 (m * (d.value / 100))
               else min d.value m)) ∧
      (getAvailableOffers 500 [⟨"P1", 1, 500⟩] none none [] [dMin1000] 0).map
          (fun o => (o.discountAmount, o.gapAmount, o.locked)) =
        [(100, some 500, true)] := by
  constructor
  · intro subtotal items email ref ps ds now d m hmem hcat husage href has hmin hm
      hlt
    obtain ⟨hd, hsf, hex⟩ := catalogPred_gates hcat
    have hbm : belowMinB d subtotal = true := by
      unfold belowMinB
      rw [hmin]
      simp [hm, hlt]
    have hproc : processOffer subtotal items ref (offersCatMap items ps) now d =
        some
          { code := jsToUpper (jsTrim d.code), type := d.type, value := d.value,
            minOrderAmount := d.minOrderAmount,
            discountAmount := discountAmountOf d m,
            description := offerDescription d,
            allowAutoApply := d.allowAutoApply.getD true,
            createdAt := d.createdAt, locked := true,
            gapAmount := some (m - subtotal), expiresAt := d.expiresAt,
            usesLeft := d.maxUsage.map (fun u => max 0 (u - d.usedCount)) } := by
      unfold processOffer
      rw [if_neg hd, if_neg (by rw [hsf]; simp), if_neg (by rw [hex]; simp),
        if_neg (by rw [husage]; simp), if_neg (by rw [href]; simp),
        if_neg (not_le.mpr has)]
      simp [hbm, hmin]
    refine ⟨_, List.mem_filterMap.mpr ⟨d, List.mem_filter.mpr ⟨hmem, hcat⟩, hproc⟩,
      rfl, rfl, rfl, rfl⟩
  · decide

/-- C5 witness: Scenario A instantiated, through the theorem itself. -/
theorem c5_locked_offers_witness :
    dMin1000 ∈ [dMin1000] ∧ catalogPred 0 dMin1000 = true ∧ (500 : ℚ) < 1000 ∧
      ∃ o ∈ getAvailableOffers 500 [⟨"P1", 1, 500⟩] none none [] [dMin1000] 0,
        o.code = jsToUpper (jsTrim dMin1000.code) ∧ o.locked = true ∧
          o.gapAmount = some (1000 - 500) ∧
          o.discountAmount =
            (if dMin1000.type = .percentage then
               round2 (1000 * (dMin1000.value / 100))
             else min dMin1000.value 1000) :=
  ⟨by decide, by decide, by decide,
    c5_locked_offers.1 500 [⟨"P1", 1, 500⟩] none none [] [dMin1000] 0 dMin1000 1000
      (by decide) (by decide) (by decide) (by decide) (by decide) (by decide)
      (by decide) (by decide)⟩

/-- The catalog query never reads `firstOrderOnly`. -/
theorem catalogPred_firstOrder (now : ℤ) (f : Bool) (d : Discount) :
    catalogPred now { d with firstOrderOnly := f } = catalogPred now d := by
  cases d
  rfl

/-- The offers loop body never reads `firstOrderOnly`. -/
theorem processOffer_firstOrder (subtotal : ℚ) (items : List Item)
    (ref : Option String) (catMap : List (String × Option String)) (now : ℤ)
    (f : Bool) (d : Discount) :
    processOffer subtotal items ref catMap now { d with firstOrderOnly := f } =
      processOffer subtotal items ref catMap now d := by
  cases d
  rfl

/-- C3 (amended): `getAvailableOffers` does not apply the `firstOrderOnly`
gate at all — flipping every candidate's `firstOrderOnly` flag leaves the
offer list unchanged, and the list does not depend on `customerEmail`
(the order store is never consulted); in particular a `firstOrderOnly`
discount is not excluded when `customerEmail` is absent or a prior order
exists. -/
theorem c3_offers_ignore_first_order :
    (∀ (subtotal : ℚ) (items : List Item) (email ref : Option String)
        (ps : List (String × Option String)) (ds : List Discount) (now : ℤ)
        (f : Bool),
        getAvailableOffers subtotal items email ref ps
            (ds.map (fun d => { d with firstOrderOnly := f })) now =
          getAvailableOffers subtotal items email ref ps ds now) ∧
      ∀ (subtotal : ℚ) (items : List Item) (e₁ e₂ ref : Option String)
        (ps : List (String × Option String)) (ds : List Discount) (now : ℤ),
        getAvailableOffers subtotal items e₁ ref ps ds now =
          getAvailableOffers subtotal items e₂ ref ps ds now := by
  constructor
  · intro subtotal items email ref ps ds now f
    unfold getAvailableOffers
    rw [List.filter_map, List.filterMap_map]
    simp only [Function.comp_def, catalogPred_firstOrder, processOffer_firstOrder]
  · intro subtotal items e₁ e₂ ref ps ds now
    rfl

/-- A scan step never loses an already-found best. -/
theorem bestStep_some_isSome (catMap : List (String × Option String)) (now : ℤ)
    (p : String) (b : ProductBest) (d : Discount) :
    (bestStep catMap now p (some b) d).isSome = true := by
  unfold bestStep
  split_ifs <;> rfl

/-- Folding the scan from an already-found best stays found. -/
theorem foldl_bestStep_some (catMap : List (String × Option String)) (now : ℤ)
    (p : String) (l : List Discount) (b : ProductBest) :
    (l.foldl (bestStep catMap now p) (some b)).isSome = true := by
  induction l generalizing b with
  | nil => rfl
  | cons d t ih =>
      rw [List.foldl_cons]
      have h := bestStep_some_isSome catMap now p b d
      cases hb : bestStep catMap now p (some b) d with
      | none => rw [hb] at h; exact Bool.noConfusion h
      | some b2 => exact ih b2

/-- The scan finds a best exactly when some candidate passes the gates and
applies to the product. -/
theorem bestForProduct_isSome_iff (l : List Discount)
    (catMap : List (String × Option String)) (now : ℤ) (p : String) :
    (bestForProduct l catMap now p).isSome = true ↔
      ∃ d ∈ l, gatesPassB d now = true ∧ appliesB catMap p d = true := by
  unfold bestForProduct
  induction l with
  | nil => simp
  | cons d t ih =>
      rw [List.foldl_cons]
      by_cases hf : gatesPassB d now = true ∧ appliesB catMap p d = true
      · have hstep : bestStep catMap now p none d = some (toBest d) := by
          simp [bestStep, isBetterB, hf.1, hf.2]
        rw [hstep]
        exact ⟨fun _ => ⟨d, List.mem_cons_self d t, hf⟩,
          fun _ => foldl_bestStep_some catMap now p t (toBest d)⟩
      · have hstep : bestStep catMap now p none d = none := by
          unfold bestStep
          rw [if_neg (by rw [Bool.and_eq_true]; exact hf)]
        rw [hstep, ih]
        constructor
        · rintro ⟨q, hm, hp2⟩
          exact ⟨q, List.mem_cons_of_mem d hm, hp2⟩
        · rintro ⟨q, hm, hp2⟩
          rcases List.mem_cons.mp hm with rfl | hm2
          · exact absurd hp2 hf
          · exact ⟨q, hm2, hp2⟩

/-- C4 (amended): in `bestOfferPerProduct` a discount applies to product
`p` exactly when its `productIds` is empty or contains `p`, or when its
`categoryIds` is non-empty and contains `p`'s resolved (non-null) category;
and `p` appears in the returned map exactly when it was requested and some
catalog candidate passes the gates and applies to it (so products matching
no discount are absent). -/
theorem c4_scope_characterization :
    (∀ (catMap : List (String × Option String)) (p : String) (d : Discount),
        appliesB catMap p d = true ↔
          (d.productIds = [] ∨ p ∈ d.productIds) ∨
            (d.categoryIds ≠ [] ∧
              ∃ c, (catMap.lookup p).join = some c ∧ c ∈ d.categoryIds)) ∧
      ∀ (ps : List String) (pstore : List (String × Option String))
        (ds : List Discount) (now : ℤ) (p : String),
        (∃ b, (p, b) ∈ getDiscountsForProducts ps pstore ds now) ↔
          p ∈ ps ∧
            ∃ d ∈ ds.filter (catalogPred now),
              gatesPassB d now = true ∧
                appliesB (buildCategoryMap ps pstore) p d = true := by
  constructor
  · intro catMap p d
    unfold appliesB
    cases hc : (catMap.lookup p).join with
    | none => simp [hc, List.isEmpty_iff]
    | some c => simp [hc, List.isEmpty_iff]
  · intro ps pstore ds now p
    unfold getDiscountsForProducts
    rw [← bestForProduct_isSome_iff (ds.filter (catalogPred now))
      (buildCategoryMap ps pstore) now p]
    constructor
    · rintro ⟨b, hb⟩
      rw [List.mem_filterMap] at hb
      obtain ⟨q, hq, hFq⟩ := hb
      cases hbf : bestForProduct (ds.filter (catalogPred now))
          (buildCategoryMap ps pstore) now q with
      | none => rw [hbf] at hFq; exact Option.noConfusion hFq
      | some pb =>
          rw [hbf] at hFq
          simp only [Option.map_some', Option.some.injEq, Prod.mk.injEq] at hFq
          obtain ⟨hqp, -⟩ := hFq
          subst hqp
          exact ⟨hq, by rw [hbf]; rfl⟩
    · rintro ⟨hp, hs⟩
      cases hbf : bestForProduct (ds.filter (catalogPred now))
          (buildCategoryMap ps pstore) now p with
      | none => rw [hbf] at hs; exact Bool.noConfusion hs
      | some pb =>
          refine ⟨⟨pb.code, pb.value, pb.type, pb.description⟩, ?_⟩
          rw [List.mem_filterMap]
          exact ⟨p, hp, by rw [hbf]; rfl⟩

/-- C1 (amended): the actual tie-break of `bestOfferPerProduct` is the
reverse of the claimed one — a percentage candidate replaces the current
best (of either type) exactly when its value is strictly greater, and a
fixed candidate replaces the current best exactly when that best is
percentage-typed; with catalog order `[5 off product X, 10% category A]`
the 10% discount wins (and with the opposite order the fixed one does, see
the counterexample). -/
theorem c1_tiebreak_corrected :
    (∀ (catMap : List (String × Option String)) (now : ℤ) (p : String)
        (b : ProductBest) (d : Discount),
        gatesPassB d now = true → appliesB catMap p d = true →
        bestStep catMap now p none d = some (toBest d) ∧
          bestStep catMap now p (some b) d =
            (if (d.type = .percentage ∧ b.value < d.value) ∨
                (d.type = .fixed ∧ b.type = .percentage)
             then some (toBest d) else some b)) ∧
      getDiscountsForProducts ["X"] [("X", some "A")] [dFixedX, dPercA] 0 =
        [("X", ⟨"CAT10", 10, .percentage, "10% off"⟩)] := by
  constructor
  · intro catMap now p b d h1 h2
    have hcond : isBetterB (some b) d = true ↔
        ((d.type = .percentage ∧ b.value < d.value) ∨
          (d.type = .fixed ∧ b.type = .percentage)) := by
      simp [isBetterB]
    constructor
    · simp [bestStep, isBetterB, h1, h2]
    · by_cases hk : (d.type = .percentage ∧ b.value < d.value) ∨
          (d.type = .fixed ∧ b.type = .percentage)
      · rw [if_pos hk]
        unfold bestStep
        rw [if_pos (by rw [Bool.and_eq_true]; exact ⟨h1, h2⟩),
          if_pos (hcond.mpr hk)]
      · rw [if_neg hk]
        unfold bestStep
        rw [if_pos (by rw [Bool.and_eq_true]; exact ⟨h1, h2⟩),
          if_neg (fun hcontra => hk (hcond.mp hcontra))]
  · decide

/-- C1 witness: the fixed 5-off candidate against a 10% current best, run
through the tie-break theorem. -/
theorem c1_tiebreak_corrected_witness :
    gatesPassB dFixedX 0 = true ∧ appliesB [("X", some "A")] "X" dFixedX = true ∧
      bestStep [("X", some "A")] 0 "X" (some (toBest dPercA)) dFixedX =
        (if (dFixedX.type = .percentage ∧ (toBest dPercA).value < dFixedX.value) ∨
            (dFixedX.type = .fixed ∧ (toBest dPercA).type = .percentage)
         then some (toBest dFixedX) else some (toBest dPercA)) :=
  ⟨by decide, by decide,
    (c1_tiebreak_corrected.1 [("X", some "A")] 0 "X" (toBest dPercA) dFixedX
      (by decide) (by decide)).2⟩

/-- The expire update is idempotent on one document. -/
theorem expireSweepOne_idem (now : ℤ) (d : Discount) :
    expireSweepOne now (expireSweepOne now d) = expireSweepOne now d := by
  unfold expireSweepOne
  split_ifs <;> simp_all

/-- The activate update is idempotent on one document. -/
theorem activateSweepOne_idem (now : ℤ) (d : Discount) :
    activateSweepOne now (activateSweepOne now d) = activateSweepOne now d := by
  unfold activateSweepOne
  split_ifs <;> simp_all

/-- The expiry test reads only `expiresAt`, so a status/updatedAt update
leaves it unchanged. -/
theorem expiredB_update (now : ℤ) (d : Discount) (st : Option DiscountStatus)
    (u : Option ℤ) :
    expiredB { d with status := st, updatedAt := u } now = expiredB d now := rfl

/-- The start-due test reads only `startsAt`, so a status/updatedAt update
leaves it unchanged. -/
theorem startsDueB_update (now : ℤ) (d : Discount) (st : Option DiscountStatus)
    (u : Option ℤ) :
    startsDueB { d with status := st, updatedAt := u } now = startsDueB d now := rfl

/-- Unless the document is simultaneously scheduled, start-due and expired,
the two per-document updates commute. -/
theorem sweepOne_comm (now : ℤ) (d : Discount)
    (h : ¬(d.status = some .scheduled ∧ startsDueB d now = true ∧
        expiredB d now = true)) :
    expireSweepOne now (activateSweepOne now d) =
      activateSweepOne now (expireSweepOne now d) := by
  unfold expireSweepOne activateSweepOne
  rcases hst : d.status with _ | st
  · simp [hst]
  · cases st <;> simp [hst] <;> split_ifs <;>
      simp_all [expiredB_update, startsDueB_update]

/-- Unless the document is simultaneously scheduled, start-due and expired,
one full sweep is a fixpoint of the next. -/
theorem syncOne_idem (now : ℤ) (d : Discount)
    (h : ¬(d.status = some .scheduled ∧ startsDueB d now = true ∧
        expiredB d now = true)) :
    activateSweepOne now (expireSweepOne now (activateSweepOne now
        (expireSweepOne now d))) =
      activateSweepOne now (expireSweepOne now d) := by
  unfold expireSweepOne activateSweepOne
  rcases hst : d.status with _ | st
  · simp [hst]
  · cases st <;> simp [hst] <;> split_ifs <;>
      simp_all [expiredB_update, startsDueB_update]

/-- C7 (amended): each bulk transition is individually idempotent on every
store state; and on every state holding no discount that is simultaneously
scheduled, start-due and expired, running `syncDiscountStatuses` twice
leaves the same status fields as running it once and the two bulk updates
applied in either order yield the same statuses.  On a
scheduled+due+expired discount this fails (see the counterexample). -/
theorem c7_sync_laws :
    (∀ (now : ℤ) (s : List Discount),
        expireSweep now (expireSweep now s) = expireSweep now s ∧
          activateSweep now (activateSweep now s) = activateSweep now s) ∧
      ∀ (now : ℤ) (s : List Discount),
        (∀ d ∈ s, ¬(d.status = some .scheduled ∧ startsDueB d now = true ∧
            expiredB d now = true)) →
        (syncDiscountStatuses now (syncDiscountStatuses now s)).map
              (fun d => d.status) =
            (syncDiscountStatuses now s).map (fun d => d.status) ∧
          (expireSweep now (activateSweep now s)).map (fun d => d.status) =
            (activateSweep now (expireSweep now s)).map (fun d => d.status) := by
  constructor
  · intro now s
    constructor
    · unfold expireSweep
      rw [List.map_map]
      exact List.map_congr_left fun d _ => expireSweepOne_idem now d
    · unfold activateSweep
      rw [List.map_map]
      exact List.map_congr_left fun d _ => activateSweepOne_idem now d
  · intro now s h
    have hsync : syncDiscountStatuses now (syncDiscountStatuses now s) =
        syncDiscountStatuses now s := by
      unfold syncDiscountStatuses expireSweep activateSweep
      simp only [List.map_map]
      exact List.map_congr_left fun d hd => syncOne_idem now d (h d hd)
    have hcomm : expireSweep now (activateSweep now s) =
        activateSweep now (expireSweep now s) := by
      unfold expireSweep activateSweep
      simp only [List.map_map]
      exact List.map_congr_left fun d hd => sweepOne_comm now d (h d hd)
    exact ⟨by rw [hsync], by rw [hcomm]⟩

/-- C7 witness: a healthy active discount satisfies the no-bad-document
hypothesis and the sweep is idempotent on it. -/
theorem c7_sync_laws_witness :
    (∀ d ∈ [dPercA], ¬(d.status = some .scheduled ∧ startsDueB d 0 = true ∧
        expiredB d 0 = true)) ∧
      (syncDiscountStatuses 0 (syncDiscountStatuses 0 [dPercA])).map
          (fun d => d.status) =
        (syncDiscountStatuses 0 [dPercA]).map (fun d => d.status) :=
  ⟨by decide, (c7_sync_laws.2 0 [dPercA] (by decide)).1⟩
